import Mathlib

/-!
Verification of the shai-python execution gatekeeper
(`src/shai_python/main.py`): the hazard pattern detector inside
`execute_shell_command`, the risk-tiered confirmation in
`display_shell_command`, and the proposer-failure handling at the end of
`main`.  The Python code is shallowly embedded: `input()` is modelled by
consuming a list of stdin lines (the next line, `""` once the list is
exhausted), prints and prompts become events in a trace, and the
subprocess launched by `subprocess.run` becomes a trace event whose exit
status is a parameter.
-/

namespace Shai

/-! ### A small regular-expression engine

`re.search` is used in `execute_shell_command` with six fixed patterns
built from literal characters, `\s*`, `\s+`, escaped literals and one
top-level alternation.  We embed exactly that fragment: literals and
character classes, sequencing, alternation and Kleene star, matched with
Brzozowski derivatives, and `re.search` as "match starting at some
offset". -/

/-- Regular expressions over characters: empty language, empty string,
single character from a class, concatenation, alternation, star. -/
inductive Rx where
  | emp : Rx
  | eps : Rx
  | cls (p : Char → Bool) : Rx
  | seq (a b : Rx) : Rx
  | alt (a b : Rx) : Rx
  | star (a : Rx) : Rx

/-- Does the regex accept the empty string? -/
def Rx.nullable : Rx → Bool
  | .emp => false
  | .eps => true
  | .cls _ => false
  | .seq a b => a.nullable && b.nullable
  | .alt a b => a.nullable || b.nullable
  | .star _ => true

/-- Brzozowski derivative of a regex by one character. -/
def Rx.deriv : Rx → Char → Rx
  | .emp, _ => .emp
  | .eps, _ => .emp
  | .cls p, c => if p c then .eps else .emp
  | .seq a b, c =>
      if a.nullable then .alt (.seq (a.deriv c) b) (b.deriv c) else .seq (a.deriv c) b
  | .alt a b, c => .alt (a.deriv c) (b.deriv c)
  | .star a, c => .seq (a.deriv c) (.star a)

/-- Does the regex match some prefix of the character list?
(Python `re.match`-at-this-offset semantics.) -/
def Rx.matchFrom : Rx → List Char → Bool
  | r, [] => r.nullable
  | r, c :: cs => r.nullable || (r.deriv c).matchFrom cs

/-- Python `re.search`: does the regex match starting at some offset? -/
def Rx.search : Rx → List Char → Bool
  | r, [] => r.matchFrom []
  | r, s@(_ :: cs) => r.matchFrom s || r.search cs

/-- Language semantics of a regex, used to prove positive matches. -/
inductive Rx.Accepts : Rx → List Char → Prop where
  | eps : Rx.Accepts .eps []
  | cls {p : Char → Bool} {c : Char} : p c = true → Rx.Accepts (.cls p) [c]
  | seq {a b : Rx} {u v : List Char} :
      Rx.Accepts a u → Rx.Accepts b v → Rx.Accepts (.seq a b) (u ++ v)
  | altL {a b : Rx} {u : List Char} : Rx.Accepts a u → Rx.Accepts (.alt a b) u
  | altR {a b : Rx} {u : List Char} : Rx.Accepts b u → Rx.Accepts (.alt a b) u
  | starNil {a : Rx} : Rx.Accepts (.star a) []
  | starCons {a : Rx} {u v : List Char} :
      Rx.Accepts a u → Rx.Accepts (.star a) v → Rx.Accepts (.star a) (u ++ v)

/-- The character class of Python's `\s` (ASCII whitespace). -/
def isPySpace (c : Char) : Bool :=
  c = ' ' || c = '\t' || c = '\n' || c = '\r' || c = '\x0b' || c = '\x0c'

/-- A regex matching one literal character. -/
def Rx.chr (c : Char) : Rx := .cls (fun d => d = c)

/-- A regex matching a literal string. -/
def Rx.lit (s : String) : Rx := s.data.foldr (fun c r => .seq (.chr c) r) .eps

/-- `\s` -/
def Rx.sp : Rx := .cls isPySpace

/-- `\s*` -/
def Rx.spStar : Rx := .star Rx.sp

/-- `\s+` -/
def Rx.spPlus : Rx := .seq Rx.sp (.star Rx.sp)

/-! ### The six hazard patterns of `execute_shell_command`

Each is the straightforward translation of the Python regex literal. -/

/-- `rm\s+-rf\s+/` — delete root directory. -/
def patRmRoot : Rx :=
  .seq (.lit "rm") (.seq .spPlus (.seq (.lit "-rf") (.seq .spPlus (.lit "/"))))

/-- `rm\s+-rf\s+\$HOME` — delete home directory. -/
def patRmHome : Rx :=
  .seq (.lit "rm") (.seq .spPlus (.seq (.lit "-rf") (.seq .spPlus (.lit "$HOME"))))

/-- `rm\s+-rf\s+\*` — delete all content in current directory. -/
def patRmStar : Rx :=
  .seq (.lit "rm") (.seq .spPlus (.seq (.lit "-rf") (.seq .spPlus (.lit "*"))))

/-- `>\s*/dev/sda` — direct write to disk device. -/
def patDevSda : Rx := .seq (.lit ">") (.seq .spStar (.lit "/dev/sda"))

/-- `dd\s+if=` — disk write command. -/
def patDd : Rx := .seq (.lit "dd") (.seq .spPlus (.lit "if="))

/-- `:\(\)\{\s*:|\s*&\s*\};` — fork bomb (a top-level alternation). -/
def patForkBomb : Rx :=
  .alt (.seq (.lit ":()\x7b") (.seq .spStar (.lit ":")))
       (.seq .spStar (.seq (.lit "&") (.seq .spStar (.lit "\x7d;"))))

/-- The `dangerous_patterns` list of `execute_shell_command`, in source
order. -/
def dangerous_patterns : List Rx :=
  [patRmRoot, patRmHome, patRmStar, patDevSda, patDd, patForkBomb]

/-- `re.search(pattern, command)` for one pattern over a command string. -/
def patternHits (p : Rx) (command : String) : Bool := p.search command.data

/-- Does the command text match at least one dangerous pattern?
(The hazard detector's verdict; it never sees the declared risk tier.) -/
def matchesAny (command : String) : Bool :=
  dangerous_patterns.any (fun p => patternHits p command)

/-- How many of the six patterns match the command (the number of
hazard-override prompts shown when every answer is `"YES"`). -/
def numMatches (command : String) : Nat :=
  (dangerous_patterns.filter (fun p => patternHits p command)).length

/-! ### Python string helpers -/

/-- Python `str.strip()` (ASCII whitespace, as produced by these prompts). -/
def pyStrip (s : String) : String :=
  ⟨((s.data.dropWhile isPySpace).reverse.dropWhile isPySpace).reverse⟩

/-- Python `str.lower()` (ASCII letters). -/
def pyLower (s : String) : String := ⟨s.data.map Char.toLower⟩

/-! ### Data model and observable events -/

/-- The `ShellCommand` pydantic model of `config.py`: command text,
explanation, and the proposer-declared risk string. -/
structure ShellCommand where
  command : String
  explanation : String
  risk : String
  deriving DecidableEq, Repr

/-- Observable events of one gatekeeper invocation, in order. -/
inductive Ev where
  /-- `print(f"\ncmd>> ...{shell_cmd.command}...")` — the command is shown. -/
  | displayCommand (command : String) : Ev
  /-- The danger-tier confirmation prompt (reads one stdin line). -/
  | promptDanger : Ev
  /-- The lighter `(y/N)` confirmation prompt (reads one stdin line). -/
  | promptLight : Ev
  /-- `print(_("command_not_executed"))`. -/
  | printNotExecuted : Ev
  /-- `print(_("dangerous_pattern_detected", command=command))`. -/
  | printDangerDetected (command : String) : Ev
  /-- The hazard-override prompt `confirm_dangerous_command` (reads one
  stdin line). -/
  | promptHazardOverride : Ev
  /-- `print(_("dangerous_command_cancelled"))`. -/
  | printHazardCancelled : Ev
  /-- `subprocess.run(command, shell=True, check=True)` is launched. -/
  | subprocessRun (command : String) : Ev
  /-- `print(_("command_execution_failed", exit_code=...))`. -/
  | printExecFailed (exitCode : Int) : Ev
  /-- `spinner.fail(...)` on a proposer exception in `main`. -/
  | spinnerFail : Ev
  deriving DecidableEq, Repr

/-! ### The gatekeeper, embedded

State threaded explicitly: the list of not-yet-consumed stdin lines.
`subprocExit` is the exit status the launched command would return. -/

/-- The `for pattern in dangerous_patterns` loop of
`execute_shell_command`: returns (events, remaining stdin, aborted?).
On a match it prints the detection message, reads one line, and aborts
unless that line is exactly `"YES"` (no stripping, no lowering). -/
def hazardCheck : List Rx → String → List String → List Ev × List String × Bool
  | [], _, inputs => ([], inputs, false)
  | p :: ps, command, inputs =>
    if patternHits p command then
      let confirm := inputs.headD ""
      if confirm ≠ "YES" then
        ([.printDangerDetected command, .promptHazardOverride, .printHazardCancelled],
         inputs.tail, true)
      else
        let r := hazardCheck ps command inputs.tail
        (.printDangerDetected command :: .promptHazardOverride :: r.1, r.2.1, r.2.2)
    else
      hazardCheck ps command inputs

/-- `execute_shell_command(command)`: hazard screening first; if it did
not abort, launch the subprocess once and, when its exit status is
non-zero (`CalledProcessError`), print the failure with that exit code.
The function itself always returns normally. -/
def execute_shell_command (command : String) (inputs : List String)
    (subprocExit : Int) : List Ev :=
  let r := hazardCheck dangerous_patterns command inputs
  if r.2.2 then r.1
  else r.1 ++ .subprocessRun command ::
    (if subprocExit = 0 then [] else [.printExecFailed subprocExit])

/-- `display_shell_command(shell_cmd)`: shows the command, then branches
on `shell_cmd.risk.lower() == "danger"`; either way the response is
`input(...).strip().lower()`.  The danger branch returns early unless the
response is `"yes"`; afterwards the shared `response in ["y", "yes"]`
test decides the hand-off to `execute_shell_command`.  Returns the event
trace paired with whether `execute_shell_command` was invoked. -/
def display_shell_command (sc : ShellCommand) (inputs : List String)
    (subprocExit : Int) : List Ev × Bool :=
  let response := pyLower (pyStrip (inputs.headD ""))
  if pyLower sc.risk = "danger" then
    if response ≠ "yes" then
      ([.displayCommand sc.command, .promptDanger, .printNotExecuted], false)
    else if response = "y" ∨ response = "yes" then
      (.displayCommand sc.command :: .promptDanger ::
        execute_shell_command sc.command inputs.tail subprocExit, true)
    else
      ([.displayCommand sc.command, .promptDanger, .printNotExecuted], false)
  else
    if response = "y" ∨ response = "yes" then
      (.displayCommand sc.command :: .promptLight ::
        execute_shell_command sc.command inputs.tail subprocExit, true)
    else
      ([.displayCommand sc.command, .promptLight, .printNotExecuted], false)

/-- Outcome of `agent.run_sync(user_prompt)` in `main`: either the
structured output or a raised exception. -/
inductive ProposerOutcome where
  | failure : ProposerOutcome
  | success (sc : ShellCommand) : ProposerOutcome

/-- The tail of `main` (the `with yaspin` block and the final
`display_shell_command(result.output)`): on a proposer exception the
spinner failure is printed and the process exits with code 1; otherwise
the gatekeeper runs and `main` returns normally (process exit code 0).
Returns (events, process exit code). -/
def main_proposer_stage (res : ProposerOutcome) (inputs : List String)
    (subprocExit : Int) : List Ev × Nat :=
  match res with
  | .failure => ([.spinnerFail], 1)
  | .success sc => ((display_shell_command sc inputs subprocExit).1, 0)

/-! ### Small helpers over traces and stdin -/

/-- Is this event a hazard-override prompt? -/
def isOverridePrompt : Ev → Bool
  | .promptHazardOverride => true
  | _ => false

/-- Is this event a subprocess launch? -/
def isSubprocess : Ev → Bool
  | .subprocessRun _ => true
  | _ => false

/-- Number of hazard-override prompts in a trace. -/
def countOverridePrompts (l : List Ev) : Nat := l.countP isOverridePrompt

/-- Number of subprocess launches in a trace. -/
def countSubprocess (l : List Ev) : Nat := l.countP isSubprocess

/-- Length of the longest prefix of stdin lines that are exactly
`"YES"`. -/
def leadingYes : List String → Nat
  | [] => 0
  | s :: r => if s = "YES" then leadingYes r + 1 else 0

/-- The tier-confirmation prompt event used for a given risk string. -/
def tierPrompt (risk : String) : Ev :=
  if pyLower risk = "danger" then .promptDanger else .promptLight

/-- The affirmative test actually applied by the confirmation gate for a
given risk string and raw stdin line. -/
def gateAccepts (risk : String) (line : String) : Bool :=
  if pyLower risk = "danger"
  then pyLower (pyStrip line) = "yes"
  else pyLower (pyStrip line) = "y" ∨ pyLower (pyStrip line) = "yes"

/-! ### Soundness of the derivative matcher

If the language semantics accepts a word, `matchFrom` and `search` find
it: enough to prove every positive hazard-detection fact. -/

theorem Rx.nullable_of_accepts_nil {r : Rx} {s : List Char}
    (h : r.Accepts s) (hs : s = []) : r.nullable = true := by
  induction h with
  | eps => rfl
  | cls _ => simp at hs
  | seq _ _ ih₁ ih₂ =>
      rcases List.append_eq_nil.mp hs with ⟨h₁, h₂⟩
      simp [Rx.nullable, ih₁ h₁, ih₂ h₂]
  | altL _ ih => simp [Rx.nullable, ih hs]
  | altR _ ih => simp [Rx.nullable, ih hs]
  | starNil => rfl
  | starCons _ _ _ _ => rfl

theorem Rx.accepts_deriv {r : Rx} {u : List Char} (h : r.Accepts u) :
    ∀ {c : Char} {s : List Char}, u = c :: s → (r.deriv c).Accepts s := by
  induction h with
  | eps => intro c s hs; simp at hs
  | @cls p c₀ hp =>
      intro c s hs
      injection hs with h₁ h₂
      subst h₁
      subst h₂
      simp only [Rx.deriv, hp, if_true]
      exact Rx.Accepts.eps
  | @seq a b u v hu hv ih₁ ih₂ =>
      intro c s hs
      cases u with
      | nil =>
          have hn : a.nullable = true := Rx.nullable_of_accepts_nil hu rfl
          simp only [List.nil_append] at hs
          simp only [Rx.deriv, hn, if_true]
          exact Rx.Accepts.altR (ih₂ hs)
      | cons c' u' =>
          simp only [List.cons_append, List.cons.injEq] at hs
          obtain ⟨rfl, hs⟩ := hs
          have hseq : (Rx.seq (a.deriv c') b).Accepts (u' ++ v) :=
            Rx.Accepts.seq (ih₁ rfl) hv
          by_cases hn : a.nullable = true
          · simp only [Rx.deriv, hn, if_true]
            exact hs ▸ Rx.Accepts.altL hseq
          · simp only [Rx.deriv, hn, Bool.false_eq_true, if_false]
            exact hs ▸ hseq
  | altL _ ih =>
      intro c s hs
      exact Rx.Accepts.altL (ih hs)
  | altR _ ih =>
      intro c s hs
      exact Rx.Accepts.altR (ih hs)
  | starNil => intro c s hs; simp at hs
  | @starCons a u v hu hv ih₁ ih₂ =>
      intro c s hs
      cases u with
      | nil => exact ih₂ (by simpa using hs)
      | cons c' u' =>
          simp only [List.cons_append, List.cons.injEq] at hs
          obtain ⟨rfl, hs⟩ := hs
          simp only [Rx.deriv]
          exact hs ▸ Rx.Accepts.seq (ih₁ rfl) hv

theorem Rx.matchFrom_of_accepts {u : List Char} :
    ∀ {r : Rx}, r.Accepts u → ∀ v, r.matchFrom (u ++ v) = true := by
  induction u with
  | nil =>
      intro r h v
      have hn := Rx.nullable_of_accepts_nil h rfl
      cases v with
      | nil => simpa [Rx.matchFrom] using hn
      | cons c cs => simp [Rx.matchFrom, hn]
  | cons c u' ih =>
      intro r h v
      have hd := Rx.accepts_deriv h (c := c) (s := u') rfl
      simp [Rx.matchFrom, ih hd v]

theorem Rx.search_of_matchFrom {r : Rx} {s : List Char}
    (h : r.matchFrom s = true) : ∀ pre, r.search (pre ++ s) = true := by
  intro pre
  induction pre with
  | nil =>
      cases s with
      | nil => simpa [Rx.search] using h
      | cons c cs => simp [Rx.search, h]
  | cons c pre' ih => simp [Rx.search, ih]

theorem Rx.search_of_accepts {r : Rx} {u : List Char} (h : r.Accepts u)
    (pre post : List Char) : r.search (pre ++ (u ++ post)) = true :=
  Rx.search_of_matchFrom (Rx.matchFrom_of_accepts h post) pre

/-! ### Acceptance facts for the pattern building blocks -/

theorem Rx.accepts_foldr_lit : ∀ l : List Char,
    (l.foldr (fun c r => .seq (.chr c) r) Rx.eps).Accepts l := by
  intro l
  induction l with
  | nil => exact Rx.Accepts.eps
  | cons c l' ih =>
      have hc : Rx.Accepts (Rx.chr c) [c] := Rx.Accepts.cls (by simp)
      exact Rx.Accepts.seq hc ih

theorem Rx.accepts_lit (s : String) : (Rx.lit s).Accepts s.data :=
  Rx.accepts_foldr_lit s.data

theorem Rx.accepts_spStar {l : List Char} (h : ∀ c ∈ l, isPySpace c = true) :
    Rx.spStar.Accepts l := by
  induction l with
  | nil => exact Rx.Accepts.starNil
  | cons c l' ih =>
      have hc : Rx.sp.Accepts [c] := Rx.Accepts.cls (h c (by simp))
      exact Rx.Accepts.starCons hc (ih (fun d hd => h d (by simp [hd])))

theorem Rx.accepts_spPlus {l : List Char} (hne : l ≠ [])
    (h : ∀ c ∈ l, isPySpace c = true) : Rx.spPlus.Accepts l := by
  cases l with
  | nil => exact absurd rfl hne
  | cons c l' =>
      have hc : Rx.sp.Accepts [c] := Rx.Accepts.cls (h c (by simp))
      exact Rx.Accepts.seq hc (Rx.accepts_spStar (fun d hd => h d (by simp [hd])))

/-- The root-delete pattern accepts `rm<ws1>-rf<ws2>/` for any non-empty
whitespace runs. -/
theorem patRmRoot_accepts {w₁ w₂ : List Char}
    (h₁ : w₁ ≠ []) (hw₁ : ∀ c ∈ w₁, isPySpace c = true)
    (h₂ : w₂ ≠ []) (hw₂ : ∀ c ∈ w₂, isPySpace c = true) :
    patRmRoot.Accepts
      ("rm".data ++ (w₁ ++ ("-rf".data ++ (w₂ ++ "/".data)))) :=
  Rx.Accepts.seq (Rx.accepts_lit "rm")
    (Rx.Accepts.seq (Rx.accepts_spPlus h₁ hw₁)
      (Rx.Accepts.seq (Rx.accepts_lit "-rf")
        (Rx.Accepts.seq (Rx.accepts_spPlus h₂ hw₂) (Rx.accepts_lit "/"))))

/-- The hazard detector flags any command embedding
`rm<ws>-rf<ws>/` between arbitrary prefix and suffix text. -/
theorem matchesAny_rmRoot (pre w₁ w₂ post : String)
    (h₁ : w₁ ≠ "") (hw₁ : ∀ c ∈ w₁.data, isPySpace c = true)
    (h₂ : w₂ ≠ "") (hw₂ : ∀ c ∈ w₂.data, isPySpace c = true) :
    matchesAny (pre ++ "rm" ++ w₁ ++ "-rf" ++ w₂ ++ "/" ++ post) = true := by
  have hne₁ : w₁.data ≠ [] := fun hc => h₁ (by
    cases w₁ with
    | mk l => simp_all)
  have hne₂ : w₂.data ≠ [] := fun hc => h₂ (by
    cases w₂ with
    | mk l => simp_all)
  have hacc := patRmRoot_accepts hne₁ hw₁ hne₂ hw₂
  have hsearch :
      patRmRoot.search
        (pre.data ++ (("rm".data ++ (w₁.data ++ ("-rf".data ++ (w₂.data ++ "/".data))))
          ++ post.data)) = true :=
    Rx.search_of_accepts hacc pre.data post.data
  have hhit : patternHits patRmRoot
      (pre ++ "rm" ++ w₁ ++ "-rf" ++ w₂ ++ "/" ++ post) = true := by
    unfold patternHits
    have hdata :
        (pre ++ "rm" ++ w₁ ++ "-rf" ++ w₂ ++ "/" ++ post).data =
          pre.data ++ (("rm".data ++ (w₁.data ++ ("-rf".data ++ (w₂.data ++ "/".data))))
            ++ post.data) := by
      simp [String.data_append, List.append_assoc]
    rw [hdata]
    exact hsearch
  unfold matchesAny
  rw [List.any_eq_true]
  exact ⟨patRmRoot, by simp [dangerous_patterns], hhit⟩

/-! ### Characterization of the hazard loop -/

theorem hazardCheck_nomatch (ps : List Rx) (command : String)
    (inputs : List String) (h : ∀ p ∈ ps, patternHits p command = false) :
    hazardCheck ps command inputs = ([], inputs, false) := by
  induction ps with
  | nil => rfl
  | cons p ps ih =>
      have hp : patternHits p command = false := h p (by simp)
      simp only [hazardCheck, hp, Bool.false_eq_true, if_false]
      exact ih (fun q hq => h q (by simp [hq]))

theorem hazardCheck_no_abort_iff (ps : List Rx) (command : String)
    (inputs : List String) :
    (hazardCheck ps command inputs).2.2 = false ↔
      (ps.filter (fun p => patternHits p command)).length ≤ leadingYes inputs := by
  induction ps generalizing inputs with
  | nil => simp [hazardCheck]
  | cons p ps ih =>
      by_cases hp : patternHits p command = true
      · cases inputs with
        | nil =>
            simp [hazardCheck, hp, List.filter_cons, leadingYes]
        | cons i rest =>
            by_cases hi : i = "YES"
            · subst hi
              simp only [hazardCheck, hp, if_true, List.headD, List.tail_cons,
                ne_eq, not_true_eq_false, if_false, List.filter_cons, leadingYes,
                if_true]
              rw [ih]
              simp [Nat.succ_le_succ_iff]
            · simp [hazardCheck, hp, hi, List.filter_cons, leadingYes]
      · have hp' : patternHits p command = false := by
          simpa using hp
        simp only [hazardCheck, hp', Bool.false_eq_true, if_false,
          List.filter_cons, hp']
        exact ih inputs

theorem hazardCheck_events (ps : List Rx) (command : String)
    (inputs : List String) :
    ∀ e ∈ (hazardCheck ps command inputs).1,
      e = .printDangerDetected command ∨ e = .promptHazardOverride ∨
        e = .printHazardCancelled := by
  induction ps generalizing inputs with
  | nil => simp [hazardCheck]
  | cons p ps ih =>
      by_cases hp : patternHits p command = true
      · by_cases hc : inputs.headD "" = "YES"
        · simp only [hazardCheck, hp, if_true, hc, ne_eq, not_true_eq_false,
            if_false]
          intro e he
          rcases List.mem_cons.mp he with rfl | he
          · exact Or.inl rfl
          rcases List.mem_cons.mp he with rfl | he
          · exact Or.inr (Or.inl rfl)
          exact ih inputs.tail e he
        · simp only [hazardCheck, hp, if_true, ne_eq, hc, not_false_eq_true,
            if_true]
          intro e he
          rcases List.mem_cons.mp he with rfl | he
          · exact Or.inl rfl
          rcases List.mem_cons.mp he with rfl | he
          · exact Or.inr (Or.inl rfl)
          rcases List.mem_cons.mp he with rfl | he
          · exact Or.inr (Or.inr rfl)
          simp at he
      · have hp' : patternHits p command = false := by simpa using hp
        simp only [hazardCheck, hp', Bool.false_eq_true, if_false]
        exact ih inputs

theorem hazardCheck_count (ps : List Rx) (command : String)
    (inputs : List String) :
    countOverridePrompts (hazardCheck ps command inputs).1 =
      min (ps.filter (fun p => patternHits p command)).length
        (leadingYes inputs + 1) := by
  induction ps generalizing inputs with
  | nil => simp [hazardCheck, countOverridePrompts]
  | cons p ps ih =>
      by_cases hp : patternHits p command = true
      · cases inputs with
        | nil =>
            simp [hazardCheck, hp, List.filter_cons, leadingYes,
              countOverridePrompts, List.countP_cons, isOverridePrompt]
        | cons i rest =>
            by_cases hi : i = "YES"
            · subst hi
              simp only [hazardCheck, hp, if_true, List.headD, List.tail_cons,
                ne_eq, not_true_eq_false, if_false, List.filter_cons, leadingYes,
                if_true]
              simp only [countOverridePrompts] at ih ⊢
              simp only [List.countP_cons, isOverridePrompt]
              rw [ih rest]
              simp only [List.length_cons, if_true, Bool.false_eq_true, if_false]
              omega
            · simp [hazardCheck, hp, hi, List.filter_cons, leadingYes,
                countOverridePrompts, List.countP_cons, isOverridePrompt]
      · have hp' : patternHits p command = false := by simpa using hp
        simp only [hazardCheck, hp', Bool.false_eq_true, if_false,
          List.filter_cons, hp']
        exact ih inputs

theorem hazardCheck_cancel_of_abort (ps : List Rx) (command : String)
    (inputs : List String) (h : (hazardCheck ps command inputs).2.2 = true) :
    Ev.printHazardCancelled ∈ (hazardCheck ps command inputs).1 := by
  induction ps generalizing inputs with
  | nil => simp [hazardCheck] at h
  | cons p ps ih =>
      by_cases hp : patternHits p command = true
      · by_cases hc : inputs.headD "" = "YES"
        · simp only [hazardCheck, hp, if_true, hc, ne_eq, not_true_eq_false,
            if_false] at h ⊢
          exact List.mem_cons_of_mem _ (List.mem_cons_of_mem _ (ih inputs.tail h))
        · simp only [hazardCheck, hp, if_true, ne_eq, hc, not_false_eq_true,
            if_true]
          simp
      · have hp' : patternHits p command = false := by simpa using hp
        simp only [hazardCheck, hp', Bool.false_eq_true, if_false] at h ⊢
        exact ih inputs h

theorem overridePrompt_mem {l : List Ev} (h : 0 < countOverridePrompts l) :
    Ev.promptHazardOverride ∈ l := by
  rcases List.countP_pos_iff.mp h with ⟨a, ha, hpa⟩
  cases a <;> simp [isOverridePrompt] at hpa
  exact ha

/-! ### Characterization of `execute_shell_command` -/

theorem execute_decomp_run (command : String) (inputs : List String) (ec : Int)
    (h : (hazardCheck dangerous_patterns command inputs).2.2 = false) :
    execute_shell_command command inputs ec =
      (hazardCheck dangerous_patterns command inputs).1 ++
        Ev.subprocessRun command ::
          (if ec = 0 then [] else [Ev.printExecFailed ec]) := by
  simp only [execute_shell_command]
  rw [h]
  simp

theorem execute_decomp_abort (command : String) (inputs : List String) (ec : Int)
    (h : (hazardCheck dangerous_patterns command inputs).2.2 = true) :
    execute_shell_command command inputs ec =
      (hazardCheck dangerous_patterns command inputs).1 := by
  simp only [execute_shell_command]
  rw [h]
  simp

theorem execute_subprocess_iff (command : String) (inputs : List String)
    (ec : Int) :
    (Ev.subprocessRun command ∈ execute_shell_command command inputs ec) ↔
      numMatches command ≤ leadingYes inputs := by
  by_cases h : (hazardCheck dangerous_patterns command inputs).2.2 = true
  · rw [execute_decomp_abort command inputs ec h]
    constructor
    · intro hm
      rcases hazardCheck_events dangerous_patterns command inputs _ hm with
        h' | h' | h' <;> simp at h'
    · intro hle
      exact absurd ((hazardCheck_no_abort_iff dangerous_patterns command
        inputs).mpr hle) (by simp [h])
  · have h' : (hazardCheck dangerous_patterns command inputs).2.2 = false := by
      simpa using h
    rw [execute_decomp_run command inputs ec h']
    constructor
    · intro _
      exact (hazardCheck_no_abort_iff dangerous_patterns command inputs).mp h'
    · intro _
      simp

theorem execute_subprocess_only (command : String) (inputs : List String)
    (ec : Int) (c : String)
    (h : Ev.subprocessRun c ∈ execute_shell_command command inputs ec) :
    c = command := by
  by_cases ha : (hazardCheck dangerous_patterns command inputs).2.2 = true
  · rw [execute_decomp_abort command inputs ec ha] at h
    rcases hazardCheck_events dangerous_patterns command inputs _ h with
      h' | h' | h' <;> simp at h'
  · have ha' : (hazardCheck dangerous_patterns command inputs).2.2 = false := by
      simpa using ha
    rw [execute_decomp_run command inputs ec ha'] at h
    rcases List.mem_append.mp h with h' | h'
    · rcases hazardCheck_events dangerous_patterns command inputs _ h' with
        h'' | h'' | h'' <;> simp at h''
    · rcases List.mem_cons.mp h' with h'' | h''
      · exact (Ev.subprocessRun.injEq _ _ ▸ h'').symm ▸ rfl
      · by_cases hec : ec = 0 <;> simp [hec] at h''

theorem execute_countSub (command : String) (inputs : List String) (ec : Int) :
    countSubprocess (execute_shell_command command inputs ec) =
      if numMatches command ≤ leadingYes inputs then 1 else 0 := by
  have hz : countSubprocess (hazardCheck dangerous_patterns command inputs).1
      = 0 := by
    rw [countSubprocess, List.countP_eq_zero]
    intro e he
    rcases hazardCheck_events dangerous_patterns command inputs _ he with
      h | h | h <;> subst h <;> simp [isSubprocess]
  by_cases h : (hazardCheck dangerous_patterns command inputs).2.2 = true
  · rw [execute_decomp_abort command inputs ec h, hz, if_neg]
    intro hle
    exact absurd ((hazardCheck_no_abort_iff dangerous_patterns command
      inputs).mpr hle) (by simp [h])
  · have h' : (hazardCheck dangerous_patterns command inputs).2.2 = false := by
      simpa using h
    rw [execute_decomp_run command inputs ec h']
    have hok : numMatches command ≤ leadingYes inputs :=
      (hazardCheck_no_abort_iff dangerous_patterns command inputs).mp h'
    rw [if_pos hok]
    rw [countSubprocess, List.countP_append, List.countP_cons]
    rw [show List.countP isSubprocess
      (hazardCheck dangerous_patterns command inputs).1 = 0 from hz]
    by_cases hec : ec = 0 <;> simp [hec, isSubprocess]

theorem execute_count_prompts (command : String) (inputs : List String)
    (ec : Int) :
    countOverridePrompts (execute_shell_command command inputs ec) =
      min (numMatches command) (leadingYes inputs + 1) := by
  have hb := hazardCheck_count dangerous_patterns command inputs
  by_cases h : (hazardCheck dangerous_patterns command inputs).2.2 = true
  · rw [execute_decomp_abort command inputs ec h]
    exact hb
  · have h' : (hazardCheck dangerous_patterns command inputs).2.2 = false := by
      simpa using h
    rw [execute_decomp_run command inputs ec h']
    rw [countOverridePrompts, List.countP_append, List.countP_cons]
    rw [show List.countP isOverridePrompt
      (hazardCheck dangerous_patterns command inputs).1 =
        min (numMatches command) (leadingYes inputs + 1) from hb]
    by_cases hec : ec = 0 <;> simp [hec, isOverridePrompt]

theorem execute_nomatch (command : String) (inputs : List String) (ec : Int)
    (h : matchesAny command = false) :
    execute_shell_command command inputs ec =
      Ev.subprocessRun command ::
        (if ec = 0 then [] else [Ev.printExecFailed ec]) := by
  have hall : ∀ p ∈ dangerous_patterns, patternHits p command = false := by
    intro p hp
    rcases Bool.eq_false_iff.mpr (fun hc => by
      have : matchesAny command = true := by
        unfold matchesAny
        rw [List.any_eq_true]
        exact ⟨p, hp, hc⟩
      simp [this] at h) with h'
    exact h'
  unfold execute_shell_command
  rw [hazardCheck_nomatch dangerous_patterns command inputs hall]
  simp

/-! ### Characterization of `display_shell_command` -/

theorem display_eq (sc : ShellCommand) (inputs : List String) (ec : Int) :
    display_shell_command sc inputs ec =
      if gateAccepts sc.risk (inputs.headD "") then
        (Ev.displayCommand sc.command :: tierPrompt sc.risk ::
          execute_shell_command sc.command inputs.tail ec, true)
      else
        ([Ev.displayCommand sc.command, tierPrompt sc.risk,
          Ev.printNotExecuted], false) := by
  unfold display_shell_command gateAccepts tierPrompt
  generalize pyLower (pyStrip (inputs.headD "")) = resp
  by_cases hd : pyLower sc.risk = "danger" <;>
    by_cases hy : resp = "yes" <;>
      by_cases hyy : resp = "y" <;>
        simp [hd, hy, hyy]

theorem display_handoff_iff (sc : ShellCommand) (inputs : List String)
    (ec : Int) :
    (display_shell_command sc inputs ec).2 =
      gateAccepts sc.risk (inputs.headD "") := by
  rw [display_eq]
  by_cases h : gateAccepts sc.risk (inputs.headD "") = true
  · rw [if_pos h, h]
  · rw [if_neg h]
    simp only [Bool.not_eq_true] at h
    rw [h]

theorem display_trace_handoff (sc : ShellCommand) (inputs : List String)
    (ec : Int) (h : gateAccepts sc.risk (inputs.headD "") = true) :
    (display_shell_command sc inputs ec).1 =
      Ev.displayCommand sc.command :: tierPrompt sc.risk ::
        execute_shell_command sc.command inputs.tail ec := by
  rw [display_eq, if_pos h]

theorem display_trace_reject (sc : ShellCommand) (inputs : List String)
    (ec : Int) (h : ¬ gateAccepts sc.risk (inputs.headD "") = true) :
    (display_shell_command sc inputs ec).1 =
      [Ev.displayCommand sc.command, tierPrompt sc.risk,
        Ev.printNotExecuted] := by
  rw [display_eq, if_neg h]

/-! ### Remaining helper lemmas -/

theorem numMatches_pos {command : String} (h : matchesAny command = true) :
    0 < numMatches command := by
  unfold matchesAny at h
  rcases List.any_eq_true.mp h with ⟨p, hp, hhit⟩
  unfold numMatches
  exact List.length_pos.mpr (List.ne_nil_of_mem (List.mem_filter.mpr ⟨hp, hhit⟩))

theorem leadingYes_getD {l : List String} :
    ∀ {n : Nat}, n ≤ leadingYes l → ∀ i < n, l.getD i "" = "YES" := by
  induction l with
  | nil =>
      intro n hn i hi
      simp [leadingYes] at hn
      omega
  | cons s r ih =>
      intro n hn i hi
      by_cases hs : s = "YES"
      · subst hs
        simp [leadingYes] at hn
        cases i with
        | zero => rfl
        | succ j =>
            have hj : j < leadingYes r := by omega
            exact ih (Nat.le_refl _) j hj
      · simp [leadingYes, hs] at hn
        omega

theorem tierPrompt_ne_subprocess (risk c : String) :
    tierPrompt risk ≠ Ev.subprocessRun c := by
  unfold tierPrompt
  split <;> simp

theorem isSubprocess_tierPrompt (risk : String) :
    isSubprocess (tierPrompt risk) = false := by
  unfold tierPrompt
  split <;> rfl

/-! ### The claims -/

/-- C1, counterexample: for the adversarial pair
command = `rm -rf /`, risk = `"safe"`, the very first prompt of the
pipeline is the risk-tier confirmation (the light `(y/N)` prompt), and
the hazard screening only starts afterwards — so the tier confirmation
is reached before hazard screening has completed, contrary to the
claim. -/
theorem claim_C1_counterexample :
    ((display_shell_command ⟨"rm -rf /", "wipe", "safe"⟩ ["y", "YES"] 0).1.take 3 =
      [Ev.displayCommand "rm -rf /", Ev.promptLight,
        Ev.printDangerDetected "rm -rf /"]) ∧
    matchesAny "rm -rf /" = true := by
  exact ⟨by decide, by decide⟩

/-- C1 (amended): the hazard check is unconditional and independent of
the declared risk tier, but it runs inside the execution step, after the
risk-tier confirmation has been shown and answered affirmatively, and
before any subprocess launch: whenever a hazard-matching command's
subprocess is launched, the trace decomposes so that the hazard-override
prompt precedes the launch, with the command display first and a tier
prompt also before the launch. -/
theorem claim_C1_amended (sc : ShellCommand) (inputs : List String) (ec : Int)
    (hm : matchesAny sc.command = true)
    (hs : Ev.subprocessRun sc.command ∈ (display_shell_command sc inputs ec).1) :
    ∃ l₁ l₂, (display_shell_command sc inputs ec).1 =
        l₁ ++ Ev.subprocessRun sc.command :: l₂ ∧
      Ev.promptHazardOverride ∈ l₁ ∧
      l₁.head? = some (Ev.displayCommand sc.command) ∧
      (Ev.promptDanger ∈ l₁ ∨ Ev.promptLight ∈ l₁) := by
  by_cases hga : gateAccepts sc.risk (inputs.headD "") = true
  case neg =>
    exfalso
    rw [display_trace_reject sc inputs ec hga] at hs
    rcases List.mem_cons.mp hs with h' | hs
    · exact Ev.noConfusion h'
    rcases List.mem_cons.mp hs with h' | hs
    · exact (tierPrompt_ne_subprocess sc.risk sc.command) h'.symm
    rcases List.mem_cons.mp hs with h' | hs
    · exact Ev.noConfusion h'
    · simp at hs
  case pos =>
    rw [display_trace_handoff sc inputs ec hga] at hs ⊢
    rcases List.mem_cons.mp hs with h' | hs
    · exact absurd h' (by simp)
    rcases List.mem_cons.mp hs with h' | hs
    · exact absurd h'.symm (tierPrompt_ne_subprocess sc.risk sc.command)
    have hnoab :
        (hazardCheck dangerous_patterns sc.command inputs.tail).2.2 = false := by
      by_contra hab
      have hab' :
          (hazardCheck dangerous_patterns sc.command inputs.tail).2.2 = true := by
        simpa using hab
      rw [execute_decomp_abort _ _ _ hab'] at hs
      rcases hazardCheck_events dangerous_patterns sc.command inputs.tail _ hs
        with h' | h' | h' <;> exact Ev.noConfusion h'
    rw [execute_decomp_run _ _ _ hnoab] at hs ⊢
    refine ⟨Ev.displayCommand sc.command :: tierPrompt sc.risk ::
      (hazardCheck dangerous_patterns sc.command inputs.tail).1,
      (if ec = 0 then [] else [Ev.printExecFailed ec]), rfl, ?_, rfl, ?_⟩
    · have hcnt := hazardCheck_count dangerous_patterns sc.command inputs.tail
      have hm' : 0 < (dangerous_patterns.filter
          (fun p => patternHits p sc.command)).length := numMatches_pos hm
      have hpos : 0 < countOverridePrompts
          (hazardCheck dangerous_patterns sc.command inputs.tail).1 := by
        rw [hcnt]
        exact Nat.lt_min.mpr ⟨hm', Nat.succ_pos _⟩
      exact List.mem_cons_of_mem _
        (List.mem_cons_of_mem _ (overridePrompt_mem hpos))
    · unfold tierPrompt
      by_cases hd : pyLower sc.risk = "danger"
      · rw [if_pos hd]
        exact Or.inl (by simp)
      · rw [if_neg hd]
        exact Or.inr (by simp)

/-- C1, witness for the amended theorem, at
command = `rm -rf /`, risk = `"safe"`, stdin `["y", "YES"]`. -/
theorem claim_C1_witness :
    matchesAny "rm -rf /" = true ∧
    Ev.subprocessRun "rm -rf /" ∈
      (display_shell_command ⟨"rm -rf /", "wipe", "safe"⟩ ["y", "YES"] 0).1 ∧
    (∃ l₁ l₂, (display_shell_command ⟨"rm -rf /", "wipe", "safe"⟩
          ["y", "YES"] 0).1 = l₁ ++ Ev.subprocessRun "rm -rf /" :: l₂ ∧
      Ev.promptHazardOverride ∈ l₁ ∧
      l₁.head? = some (Ev.displayCommand "rm -rf /") ∧
      (Ev.promptDanger ∈ l₁ ∨ Ev.promptLight ∈ l₁)) :=
  ⟨by decide, by decide,
    claim_C1_amended ⟨"rm -rf /", "wipe", "safe"⟩ ["y", "YES"] 0
      (by decide) (by decide)⟩

/-- C2, counterexample: for tier `"danger"`, the inputs `"yes"` and
`"Yes"` are accepted (the gate lowercases the stripped response before
comparing with `"yes"`), and for `"yes"` the command is in fact handed
to the executor — contrary to the claim that only the exact string
`"YES"` is accepted. -/
theorem claim_C2_counterexample :
    (display_shell_command ⟨"ls", "list", "danger"⟩ ["yes"] 0).2 = true ∧
    Ev.subprocessRun "ls" ∈
      (display_shell_command ⟨"ls", "list", "danger"⟩ ["yes"] 0).1 ∧
    (display_shell_command ⟨"ls", "list", "danger"⟩ ["Yes"] 0).2 = true := by
  exact ⟨by decide, by decide, by decide⟩

/-- C2 (amended): for tier = danger, the confirmation gate transitions
to Approved exactly when the stripped, lowercased input equals `"yes"`
(so `"YES"`, `"yes"`, `"Yes"` are all accepted, while `"y"` and `""`
transition to Rejected). -/
theorem claim_C2_amended (sc : ShellCommand) (line : String)
    (rest : List String) (ec : Int) (hd : pyLower sc.risk = "danger") :
    ((display_shell_command sc (line :: rest) ec).2 = true ↔
      pyLower (pyStrip line) = "yes") := by
  rw [display_handoff_iff]
  show gateAccepts sc.risk line = true ↔ _
  unfold gateAccepts
  rw [if_pos hd]
  simp

/-- C2, witness for the amended theorem: tier `"danger"`, input `"y"`
(rejected, since `"y"` lowercased is not `"yes"`). -/
theorem claim_C2_witness :
    pyLower (ShellCommand.mk "ls" "list" "danger").risk = "danger" ∧
    ((display_shell_command ⟨"ls", "list", "danger"⟩ ["y"] 0).2 = true ↔
      pyLower (pyStrip "y") = "yes") :=
  ⟨by decide, claim_C2_amended ⟨"ls", "list", "danger"⟩ "y" [] 0 (by decide)⟩

/-- C3, counterexample: for the unrecognized risk string
`"chartreuse"`, the gate accepts the light affirmative `"y"` and hands
the command to the executor — the lighter yes/no confirmation, not the
claimed strictest (danger-equivalent) behavior, which would reject
`"y"`. -/
theorem claim_C3_counterexample :
    (display_shell_command ⟨"ls", "list", "chartreuse"⟩ ["y"] 0).2 = true ∧
    Ev.subprocessRun "ls" ∈
      (display_shell_command ⟨"ls", "list", "chartreuse"⟩ ["y"] 0).1 := by
  exact ⟨by decide, by decide⟩

/-- C3 (amended): for every ProposedCommand whose risk string is not one
of the recognized tiers, the gatekeeper does not crash (the gate is a
total function of the risk string), but it applies the lighter yes/no
confirmation — the same behavior as `"safe"`/`"caution"` — rather than
the danger-equivalent one. -/
theorem claim_C3_amended (sc : ShellCommand) (line : String)
    (rest : List String) (ec : Int)
    (hu : pyLower sc.risk ≠ "safe" ∧ pyLower sc.risk ≠ "caution" ∧
      pyLower sc.risk ≠ "danger") :
    ((display_shell_command sc (line :: rest) ec).2 = true ↔
      (pyLower (pyStrip line) = "y" ∨ pyLower (pyStrip line) = "yes")) := by
  rw [display_handoff_iff]
  show gateAccepts sc.risk line = true ↔ _
  unfold gateAccepts
  rw [if_neg hu.2.2]
  simp

/-- C3, witness for the amended theorem: risk `"chartreuse"`,
input `"y"` (accepted by the light gate). -/
theorem claim_C3_witness :
    (pyLower (ShellCommand.mk "ls" "list" "chartreuse").risk ≠ "safe" ∧
      pyLower (ShellCommand.mk "ls" "list" "chartreuse").risk ≠ "caution" ∧
      pyLower (ShellCommand.mk "ls" "list" "chartreuse").risk ≠ "danger") ∧
    ((display_shell_command ⟨"ls", "list", "chartreuse"⟩ ["y"] 0).2 = true ↔
      (pyLower (pyStrip "y") = "y" ∨ pyLower (pyStrip "y") = "yes")) :=
  ⟨by decide,
    claim_C3_amended ⟨"ls", "list", "chartreuse"⟩ "y" [] 0 (by decide)⟩

/-- C4, counterexample: `rm -fr /` — the same forced recursive delete of
`/` with the flags written in the other order — matches none of the six
patterns, so the hazard detector does not flag it and the hazard gate
shows no override prompt; the claim's "arbitrary ordering of the flags"
fails on the code. -/
theorem claim_C4_counterexample :
    matchesAny "rm -fr /" = false ∧
    countOverridePrompts (execute_shell_command "rm -fr /" [] 0) = 0 := by
  exact ⟨by decide, by decide⟩

/-- C4 (amended): every command embedding `rm`, one-or-more whitespace,
the literal flag text `-rf`, one-or-more whitespace, then `/` — with
arbitrary surrounding text but the flags exactly in the order `-rf` — is
flagged by the detector (which never consults the declared risk tier);
and the fixed pattern set covers the canonical forms of recursive forced
delete of `/`, of `$HOME`, of `*`, direct writes to `/dev/sda`,
`dd if=` disk-image writes, and the shell fork bomb. -/
theorem claim_C4_amended :
    (∀ pre w₁ w₂ post : String, w₁ ≠ "" →
      (∀ c ∈ w₁.data, isPySpace c = true) → w₂ ≠ "" →
      (∀ c ∈ w₂.data, isPySpace c = true) →
      matchesAny (pre ++ "rm" ++ w₁ ++ "-rf" ++ w₂ ++ "/" ++ post) = true) ∧
    matchesAny "rm -rf $HOME" = true ∧
    matchesAny "rm -rf *" = true ∧
    matchesAny "echo boom > /dev/sda" = true ∧
    matchesAny "dd if=/dev/zero of=/dev/sda" = true ∧
    matchesAny ":(){ :|:& };:" = true := by
  refine ⟨?_, by decide, by decide, by decide, by decide, by decide⟩
  intro pre w₁ w₂ post h₁ hw₁ h₂ hw₂
  exact matchesAny_rmRoot pre w₁ w₂ post h₁ hw₁ h₂ hw₂

/-- C4, witness for the amended theorem, at
`sudo rm -rf  / --no-preserve-root` (prefix `"sudo "`, whitespace runs
`" "` and `"  "`, suffix `" --no-preserve-root"`). -/
theorem claim_C4_witness :
    (" " : String) ≠ "" ∧ ("  " : String) ≠ "" ∧
    matchesAny ("sudo " ++ "rm" ++ " " ++ "-rf" ++ "  " ++ "/" ++
      " --no-preserve-root") = true :=
  ⟨by decide, by decide,
    claim_C4_amended.1 "sudo " " " "  " " --no-preserve-root"
      (by decide) (by decide) (by decide) (by decide)⟩

/-- C5 (confirmed): whenever a confirmation is declined — the risk-tier
gate rejects (no hand-off), or some hazard-override prompt among the
matching patterns is answered with anything but the exact string
`"YES"` — no subprocess event ever appears in the trace, and the
not-executed (or hazard-cancelled) message is printed. -/
theorem claim_C5 (sc : ShellCommand) (inputs : List String) (ec : Int)
    (h : (display_shell_command sc inputs ec).2 = false ∨
      ∃ k, k < numMatches sc.command ∧ inputs.tail.getD k "" ≠ "YES") :
    (∀ c, Ev.subprocessRun c ∉ (display_shell_command sc inputs ec).1) ∧
    (Ev.printNotExecuted ∈ (display_shell_command sc inputs ec).1 ∨
      Ev.printHazardCancelled ∈ (display_shell_command sc inputs ec).1) := by
  by_cases hga : gateAccepts sc.risk (inputs.headD "") = true
  case neg =>
    rw [display_trace_reject sc inputs ec hga]
    constructor
    · intro c hc
      rcases List.mem_cons.mp hc with h' | hc
      · exact Ev.noConfusion h'
      rcases List.mem_cons.mp hc with h' | hc
      · exact (tierPrompt_ne_subprocess sc.risk c) h'.symm
      rcases List.mem_cons.mp hc with h' | hc
      · exact Ev.noConfusion h'
      · simp at hc
    · exact Or.inl (by simp)
  case pos =>
    rcases h with hrej | ⟨k, hk, hky⟩
    · rw [display_handoff_iff, hga] at hrej
      exact absurd hrej (by simp)
    · have hab :
          (hazardCheck dangerous_patterns sc.command inputs.tail).2.2 = true := by
        by_contra hno
        have hno' :
            (hazardCheck dangerous_patterns sc.command inputs.tail).2.2 =
              false := by
          simpa using hno
        have hle : numMatches sc.command ≤ leadingYes inputs.tail :=
          (hazardCheck_no_abort_iff dangerous_patterns sc.command
            inputs.tail).mp hno'
        exact hky (leadingYes_getD hle k hk)
      rw [display_trace_handoff sc inputs ec hga,
          execute_decomp_abort _ _ _ hab]
      constructor
      · intro c hc
        rcases List.mem_cons.mp hc with h' | hc
        · exact Ev.noConfusion h'
        rcases List.mem_cons.mp hc with h' | hc
        · exact (tierPrompt_ne_subprocess sc.risk c) h'.symm
        · rcases hazardCheck_events dangerous_patterns sc.command inputs.tail
            _ hc with h' | h' | h' <;> exact Ev.noConfusion h'
      · exact Or.inr (List.mem_cons_of_mem _ (List.mem_cons_of_mem _
          (hazardCheck_cancel_of_abort dangerous_patterns sc.command
            inputs.tail hab)))

/-- C5, witness: risk `"safe"`, input `"n"` — the tier gate rejects and
no subprocess is launched. -/
theorem claim_C5_witness :
    (display_shell_command ⟨"ls", "list files", "safe"⟩ ["n"] 0).2 = false ∧
    Ev.subprocessRun "ls" ∉
      (display_shell_command ⟨"ls", "list files", "safe"⟩ ["n"] 0).1 :=
  ⟨by decide,
    (claim_C5 ⟨"ls", "list files", "safe"⟩ ["n"] 0 (Or.inl (by decide))).1 "ls"⟩

/-- C6 (confirmed): for tier = safe or caution, the confirmation gate
hands the command to the executor exactly when the stripped input,
lowercased, is `"y"` or `"yes"`; every other input leads to the
rejection branch. -/
theorem claim_C6 (sc : ShellCommand) (line : String) (rest : List String)
    (ec : Int)
    (h : pyLower sc.risk = "safe" ∨ pyLower sc.risk = "caution") :
    ((display_shell_command sc (line :: rest) ec).2 = true ↔
      (pyLower (pyStrip line) = "y" ∨ pyLower (pyStrip line) = "yes")) := by
  have hd : ¬ pyLower sc.risk = "danger" := by
    rcases h with h | h <;> rw [h] <;> decide
  rw [display_handoff_iff]
  show gateAccepts sc.risk line = true ↔ _
  unfold gateAccepts
  rw [if_neg hd]
  simp

/-- C6, witness: tier `"safe"`, input `" YES "` — stripped and
lowercased it is `"yes"`, so the gate approves. -/
theorem claim_C6_witness :
    (pyLower (ShellCommand.mk "ls" "list" "safe").risk = "safe" ∨
      pyLower (ShellCommand.mk "ls" "list" "safe").risk = "caution") ∧
    ((display_shell_command ⟨"ls", "list", "safe"⟩ [" YES "] 0).2 = true ↔
      (pyLower (pyStrip " YES ") = "y" ∨ pyLower (pyStrip " YES ") = "yes")) :=
  ⟨Or.inl (by decide),
    claim_C6 ⟨"ls", "list", "safe"⟩ " YES " [] 0 (Or.inl (by decide))⟩

/-- C7 (confirmed): for every command matching no hazard pattern, the
hazard gate is a no-op — zero override prompts are shown and the
execution step runs the subprocess directly (followed only by the
failure report when the exit status is non-zero). -/
theorem claim_C7 (command : String) (inputs : List String) (ec : Int)
    (h : matchesAny command = false) :
    countOverridePrompts (execute_shell_command command inputs ec) = 0 ∧
    execute_shell_command command inputs ec =
      Ev.subprocessRun command ::
        (if ec = 0 then [] else [Ev.printExecFailed ec]) := by
  have he := execute_nomatch command inputs ec h
  refine ⟨?_, he⟩
  rw [he]
  by_cases hec : ec = 0 <;>
    simp [hec, countOverridePrompts, List.countP_cons, isOverridePrompt]

/-- C7, witness at the benign command `ls -la`. -/
theorem claim_C7_witness :
    matchesAny "ls -la" = false ∧
    (countOverridePrompts (execute_shell_command "ls -la" [] 0) = 0 ∧
      execute_shell_command "ls -la" [] 0 =
        Ev.subprocessRun "ls -la" ::
          (if (0 : Int) = 0 then [] else [Ev.printExecFailed 0])) :=
  ⟨by decide, claim_C7 "ls -la" [] 0 (by decide)⟩

/-- C8 (confirmed): when the proposer call fails, the process exit code
is non-zero and no command display, tier prompt, or hazard prompt
appears in the trace; when the proposer succeeds, the process exit code
is 0 for every stdin behavior — declining execution included. -/
theorem claim_C8 (sc : ShellCommand) (inputs : List String) (ec : Int) :
    (main_proposer_stage ProposerOutcome.failure inputs ec).2 ≠ 0 ∧
    (∀ c, Ev.displayCommand c ∉
      (main_proposer_stage ProposerOutcome.failure inputs ec).1) ∧
    Ev.promptDanger ∉ (main_proposer_stage ProposerOutcome.failure inputs ec).1 ∧
    Ev.promptLight ∉ (main_proposer_stage ProposerOutcome.failure inputs ec).1 ∧
    Ev.promptHazardOverride ∉
      (main_proposer_stage ProposerOutcome.failure inputs ec).1 ∧
    (main_proposer_stage (ProposerOutcome.success sc) inputs ec).2 = 0 := by
  refine ⟨by simp [main_proposer_stage], ?_, by simp [main_proposer_stage],
    by simp [main_proposer_stage], by simp [main_proposer_stage], rfl⟩
  intro c
  simp [main_proposer_stage]

/-- C9 (confirmed): when the approved command's subprocess exits
non-zero, exactly one subprocess launch appears in the trace (no retry),
the failure is reported with that exit code, and the tool's own process
exit code is still 0. -/
theorem claim_C9 (sc : ShellCommand) (inputs : List String) (ec : Int)
    (hec : ec ≠ 0)
    (hrun : Ev.subprocessRun sc.command ∈
      (display_shell_command sc inputs ec).1) :
    countSubprocess (display_shell_command sc inputs ec).1 = 1 ∧
    Ev.printExecFailed ec ∈ (display_shell_command sc inputs ec).1 ∧
    (main_proposer_stage (ProposerOutcome.success sc) inputs ec).2 = 0 := by
  have hga : gateAccepts sc.risk (inputs.headD "") = true := by
    by_contra hga
    rw [display_trace_reject sc inputs ec hga] at hrun
    rcases List.mem_cons.mp hrun with h' | hc
    · exact Ev.noConfusion h'
    rcases List.mem_cons.mp hc with h' | hc
    · exact (tierPrompt_ne_subprocess sc.risk sc.command) h'.symm
    rcases List.mem_cons.mp hc with h' | hc
    · exact Ev.noConfusion h'
    · simp at hc
  rw [display_trace_handoff sc inputs ec hga] at hrun ⊢
  have hsub : Ev.subprocessRun sc.command ∈
      execute_shell_command sc.command inputs.tail ec := by
    rcases List.mem_cons.mp hrun with h' | hc
    · exact absurd h' (by simp)
    rcases List.mem_cons.mp hc with h' | hc
    · exact absurd h'.symm (tierPrompt_ne_subprocess sc.risk sc.command)
    · exact hc
  have hle : numMatches sc.command ≤ leadingYes inputs.tail :=
    (execute_subprocess_iff sc.command inputs.tail ec).mp hsub
  refine ⟨?_, ?_, rfl⟩
  · show List.countP isSubprocess _ = 1
    rw [List.countP_cons, List.countP_cons]
    rw [show List.countP isSubprocess
        (execute_shell_command sc.command inputs.tail ec) =
      countSubprocess (execute_shell_command sc.command inputs.tail ec)
        from rfl]
    rw [execute_countSub sc.command inputs.tail ec, if_pos hle,
      isSubprocess_tierPrompt]
    simp [isSubprocess]
  · have hno :
        (hazardCheck dangerous_patterns sc.command inputs.tail).2.2 = false :=
      (hazardCheck_no_abort_iff dangerous_patterns sc.command inputs.tail).mpr
        hle
    rw [execute_decomp_run _ _ _ hno]
    simp [hec]

/-- C9, witness: risk `"safe"`, command `false` exiting with status 1,
stdin `["y"]`. -/
theorem claim_C9_witness :
    (1 : Int) ≠ 0 ∧
    Ev.subprocessRun "false" ∈
      (display_shell_command ⟨"false", "fails", "safe"⟩ ["y"] 1).1 ∧
    (countSubprocess (display_shell_command ⟨"false", "fails", "safe"⟩
        ["y"] 1).1 = 1 ∧
      Ev.printExecFailed 1 ∈
        (display_shell_command ⟨"false", "fails", "safe"⟩ ["y"] 1).1 ∧
      (main_proposer_stage (ProposerOutcome.success
        ⟨"false", "fails", "safe"⟩) ["y"] 1).2 = 0) :=
  ⟨by decide, by decide,
    claim_C9 ⟨"false", "fails", "safe"⟩ ["y"] 1 (by decide) (by decide)⟩

/-- C10 (confirmed): the hazard loop prompts once per matching pattern
in list order as long as every consumed answer is the exact unstripped
string `"YES"`: the subprocess is launched exactly when the first
`numMatches` stdin lines are all `"YES"`, and the number of override
prompts is `numMatches` in that case and `k + 1` when the `k`-th answer
is the first non-`"YES"` one (immediate abort). -/
theorem claim_C10 (command : String) (inputs : List String) (ec : Int) :
    ((Ev.subprocessRun command ∈ execute_shell_command command inputs ec) ↔
      numMatches command ≤ leadingYes inputs) ∧
    countOverridePrompts (execute_shell_command command inputs ec) =
      min (numMatches command) (leadingYes inputs + 1) :=
  ⟨execute_subprocess_iff command inputs ec,
    execute_count_prompts command inputs ec⟩

end Shai

/-! Sanity checks of the embedding on concrete inputs. -/

example : Shai.matchesAny "rm -rf /" = true := by decide
example : Shai.matchesAny "ls -la" = false := by decide
example : Shai.matchesAny "dd if=/dev/zero of=/dev/sda" = true := by decide
example : Shai.matchesAny ":(){ :|:& };:" = true := by decide
example : Shai.matchesAny "rm -rf $HOME" = true := by decide
example : Shai.matchesAny "echo hi > /dev/sda" = true := by decide
example : Shai.matchesAny "rm   -rf   *" = true := by decide
example : Shai.matchesAny "rm -fr /" = false := by decide
example : Shai.pyLower (Shai.pyStrip "  YeS ") = "yes" := by decide
example :
    (Shai.display_shell_command ⟨"ls", "e", "danger"⟩ ["yes"] 0).2 = true := by decide
example :
    (Shai.display_shell_command ⟨"ls", "e", "danger"⟩ ["y"] 0).2 = false := by decide
example :
    (Shai.display_shell_command ⟨"ls", "e", "wild"⟩ ["y"] 0).2 = true := by decide
